import Mathlib

/-!
Verification of the PyChess engine (chess.py, ai.py) against its
natural-language specification.  The Python source is shallowly embedded:
pieces are heap objects addressed by numeric ids (Python object identity),
the 64-slot grid is a total function on Fin 64, Python list indexing of the
grid (which wraps negative indices and raises IndexError outside [-64, 63])
is modelled explicitly, and operations that can raise return Option / a
result type carrying the partially mutated state.
-/

/-- Position: an integer (column, rank) coordinate.  The source constructor
performs no validation; bounds are only queryable via is_in_bounds. -/
structure Position where
  column : Int
  rank : Int
deriving DecidableEq, Repr

/-- Position.__init__ from the source: it merely stores the coordinates and
can never raise, modelled as an Except that is always ok. -/
def Position.init (column rank : Int) : Except String Position :=
  Except.ok ⟨column, rank⟩

/-- is_in_bounds from the source: 7 >= column >= 0 and 7 >= rank >= 0. -/
def Position.is_in_bounds (p : Position) : Bool :=
  decide (7 ≥ p.column ∧ p.column ≥ 0 ∧ 7 ≥ p.rank ∧ p.rank ≥ 0)

/-- The six piece classes of the source (Pawn, Rook, Knight, Bishop, Queen,
King). -/
inductive PType where
  | pawn
  | rook
  | knight
  | bishop
  | queen
  | king
deriving DecidableEq, Repr

/-- The `points` class attribute of each piece class. -/
def PType.points : PType → Int
  | .pawn => 1
  | .rook => 5
  | .knight => 3
  | .bishop => 3
  | .queen => 9
  | .king => 0

/-- State of one Python piece object.  hasMoved is only ever read for
Rook/King and diagonal only for Bishop; the embedding stores both fields on
every object with the value the corresponding constructor would give. -/
structure PieceObj where
  ptype : PType
  color : Bool
  pos : Position
  hasMoved : Bool
  diagonal : Int
deriving DecidableEq, Repr

/-- Piece construction: Piece.__init__ stores position and color;
Rook/King additionally set hasMoved = False, Bishop computes
diagonal = (column + rank) % 2. -/
def Piece.init (t : PType) (pos : Position) (color : Bool) : PieceObj :=
  { ptype := t, color := color, pos := pos, hasMoved := false,
    diagonal := (pos.column + pos.rank) % 2 }

/-- A Move record (class Move).  castling is the boolean flag Board.move
actually stores (it assigns True, discarding the side returned by castle).
originalHasMoved is the snapshot taken for Rook/King movers; it is stored
unconditionally here but only ever read for Rook/King, as in the source. -/
structure MoveV where
  start : Position
  stop : Position
  pieceId : Nat
  capturedPiece : Option Nat
  enpassant : Bool
  castling : Bool
  promotion : Bool
  originalHasMoved : Bool
deriving DecidableEq, Repr

/-- The Board.  pieces holds object ids (Python references); heap maps each
id to the object's current state; nextId is the allocator.  attackedSquares,
counterChecks, pinnedLines, pinnedSquares are the caches the source stores;
they are only ever observed through membership, so Python's set() wrappers
are modelled as plain lists. -/
structure Board where
  nextId : Nat
  heap : Nat → PieceObj
  pieces : List Nat
  grid : Fin 64 → Option Nat
  lastMove : Option MoveV
  promotion : Option Nat
  result : Option Nat
  attackedSquares : List Position
  counterChecks : List (List Position)
  pinnedLines : List (List Position)
  pinnedSquares : List Position
  underCheck : Bool
  whiteKing : Nat
  blackKing : Nat

/-- Flat index of a position: column + rank * 8. -/
def gridIdx (p : Position) : Int := p.column + p.rank * 8

/-- Python list read board[i] on the 64-slot grid: non-negative indices below
64 read directly, indices in [-64, -1] wrap (Python negative indexing).
Indices outside [-64, 63] raise IndexError in Python; that branch returns
none here and is never reached by the concrete states in the proofs below. -/
def pyGridGet (g : Fin 64 → Option Nat) (i : Int) : Option Nat :=
  if h : 0 ≤ i ∧ i < 64 then g ⟨i.toNat, by omega⟩
  else if h2 : -64 ≤ i ∧ i < 0 then g ⟨(i + 64).toNat, by omega⟩
  else none

/-- Python list write board[i] = v with the same indexing rules; the
IndexError branch leaves the grid unchanged and is never reached in the
proofs below. -/
def pyGridSet (g : Fin 64 → Option Nat) (i : Int) (v : Option Nat) :
    Fin 64 → Option Nat :=
  if h : 0 ≤ i ∧ i < 64 then
    fun j => if j = (⟨i.toNat, by omega⟩ : Fin 64) then v else g j
  else if h2 : -64 ≤ i ∧ i < 0 then
    fun j => if j = (⟨(i + 64).toNat, by omega⟩ : Fin 64) then v else g j
  else g

/-- Board.get_piece. -/
def Board.get_piece (b : Board) (p : Position) : Option Nat :=
  pyGridGet b.grid (gridIdx p)

/-- Board.get_piece with Python's IndexError made explicit, used to state
the error-handling claims: indices in [0,63] read directly, [-64,-1] wrap,
anything else raises. -/
def Board.getPieceChecked (b : Board) (p : Position) :
    Except String (Option Nat) :=
  let i := gridIdx p
  if h : 0 ≤ i ∧ i < 64 then Except.ok (b.grid ⟨i.toNat, by omega⟩)
  else if h2 : -64 ≤ i ∧ i < 0 then Except.ok (b.grid ⟨(i + 64).toNat, by omega⟩)
  else Except.error "IndexError"

/-- Board.get_pieces: all pieces, or only those of the given color
(filter preserves list order). -/
def Board.get_pieces (b : Board) (color : Option Bool) : List Nat :=
  match color with
  | none => b.pieces
  | some c => b.pieces.filter (fun pid => (b.heap pid).color = c)

/-- Board.get_king. -/
def Board.get_king (b : Board) (color : Bool) : Nat :=
  if color then b.whiteKing else b.blackKing

/-- Board.clear_square. -/
def Board.clear_square (b : Board) (p : Position) : Board :=
  { b with grid := pyGridSet b.grid (gridIdx p) none }

/-- Update one heap object's position. -/
def heapSetPos (h : Nat → PieceObj) (pid : Nat) (pos : Position) :
    Nat → PieceObj :=
  fun i => if i = pid then { h pid with pos := pos } else h i

/-- Update one heap object's hasMoved flag. -/
def heapSetHasMoved (h : Nat → PieceObj) (pid : Nat) (v : Bool) :
    Nat → PieceObj :=
  fun i => if i = pid then { h pid with hasMoved := v } else h i

/-- Board.set_piece: optionally rebind piece.position, then write the piece
into the grid slot of its (possibly updated) position. -/
def Board.set_piece (b : Board) (pid : Nat) (posArg : Option Position) : Board :=
  let b1 := match posArg with
    | some pos => { b with heap := heapSetPos b.heap pid pos }
    | none => b
  { b1 with grid := pyGridSet b1.grid (gridIdx ((b1.heap pid).pos)) (some pid) }

/-- Board.remove_piece: list.remove by object identity, then clear the
square of the piece's stored position.  Callers only reach this with the id
present in the list (the broken promote path is modelled separately). -/
def Board.remove_piece (b : Board) (pid : Nat) : Board :=
  let b1 := { b with pieces := b.pieces.erase pid }
  b1.clear_square ((b1.heap pid).pos)

/-- Board.add_piece: append to the pieces list then set_piece. -/
def Board.add_piece (b : Board) (pid : Nat) : Board :=
  Board.set_piece { b with pieces := b.pieces ++ [pid] } pid none

/-- Allocate a fresh Python object. -/
def allocPiece (b : Board) (obj : PieceObj) : Nat × Board :=
  (b.nextId,
   { b with nextId := b.nextId + 1,
            heap := fun i => if i = b.nextId then obj else b.heap i })

/-- Board.move_piece with tryMove at its default False (no caller of the
source ever passes True): records lastMove, moves the piece on the grid, and
sets hasMoved for a King or Rook that had not moved yet. -/
def Board.move_piece (b : Board) (pid : Nat) (pos : Position) : Board :=
  let o := b.heap pid
  let lm : MoveV :=
    { start := o.pos, stop := pos, pieceId := pid, capturedPiece := none,
      enpassant := false, castling := false, promotion := false,
      originalHasMoved := o.hasMoved }
  let b1 := { b with lastMove := some lm }
  let b2 := b1.clear_square o.pos
  let b3 := b2.set_piece pid (some pos)
  if (o.ptype = PType.king ∨ o.ptype = PType.rook) ∧ o.hasMoved = false then
    { b3 with heap := heapSetHasMoved b3.heap pid true }
  else b3

/-- An empty board used as the fold seed of Board.__init__.  The heap default
is arbitrary; ids are only read after allocation. -/
def emptyBoard : Board :=
  { nextId := 0,
    heap := fun _ => Piece.init PType.pawn ⟨0, 0⟩ true,
    pieces := [], grid := fun _ => none, lastMove := none, promotion := none,
    result := none, attackedSquares := [], counterChecks := [],
    pinnedLines := [], pinnedSquares := [], underCheck := false,
    whiteKing := 0, blackKing := 0 }

/-- Board.__init__: allocate and add each piece in order, remembering the
kings.  (zobrist_init only fills the global key table, which the embedding
takes as a parameter.) -/
def Board.init (objs : List PieceObj) : Board :=
  objs.foldl
    (fun b obj =>
      let (pid, b1) := allocPiece b obj
      let b2 := b1.add_piece pid
      if obj.ptype = PType.king then
        if obj.color then { b2 with whiteKing := pid }
        else { b2 with blackKing := pid }
      else b2)
    emptyBoard

/-- The zobrist table: one 64-bit key per (class, color, flat square index).
zobrist_init draws these at random; the embedding abstracts over the table. -/
abbrev ZTable : Type := PType → Bool → Int → Nat

/-- Piece.get_zobrist_key: look up (class, color, flat index of position). -/
def Piece.get_zobrist_key (tbl : ZTable) (o : PieceObj) : Nat :=
  tbl o.ptype o.color (gridIdx o.pos)

/-- Board.get_zobrist_key: the accumulator starts as lastMove.piece.color
(Python bool as int) when a last move exists, else 1, and is XORed with
every live piece's key in list order. -/
def Board.get_zobrist_key (b : Board) (tbl : ZTable) : Nat :=
  let init : Nat := match b.lastMove with
    | some m => if (b.heap m.pieceId).color then 1 else 0
    | none => 1
  b.pieces.foldl (fun k pid => k ^^^ Piece.get_zobrist_key tbl (b.heap pid)) init

/-- Piece.try_check: True means the move would leave the own King in check
(and is filtered out).  Only selfPos (self.position) is read from the piece. -/
def Piece.try_check (b : Board) (selfPos pos : Position) : Bool :=
  if b.underCheck then
    if b.counterChecks.length = 1 then
      decide (pos ∉ b.counterChecks.headI)
    else
      true
  else
    if selfPos ∈ b.pinnedSquares then
      decide (¬ ∃ line ∈ b.pinnedLines, selfPos ∈ line ∧ pos ∈ line)
    else
      false

/-- Piece.valid_capturing: the square holds an enemy piece. -/
def valid_capturing (b : Board) (selfColor : Bool) (pos : Position) : Bool :=
  match b.get_piece pos with
  | some pid => (b.heap pid).color != selfColor
  | none => false

/-- Piece.valid_empty_or_capturing. -/
def valid_empty_or_capturing (b : Board) (selfColor : Bool) (pos : Position) : Bool :=
  match b.get_piece pos with
  | some _ => valid_capturing b selfColor pos
  | none => true

/-- The color_to_play decorator's turn test: with no last move only white
may play, otherwise only the color opposite to the last mover. -/
def colorToPlayOk (b : Board) (selfColor : Bool) : Bool :=
  match b.lastMove with
  | none => selfColor = true
  | some m => (b.heap m.pieceId).color != selfColor

/-- Python range(lo, hi) over integers. -/
def intRange (lo hi : Int) : List Int :=
  (List.range (hi - lo).toNat).map (fun k => lo + (k : Int))

/-- The four rook rays of a position, in source order
(left reversed, right, up reversed, down). -/
def rookLines (p : Position) : List (List Position) :=
  [ ((List.range p.column.toNat).reverse).map (fun c => ⟨(c : Int), p.rank⟩),
    (intRange (p.column + 1) 8).map (fun c => ⟨c, p.rank⟩),
    ((List.range p.rank.toNat).reverse).map (fun r => ⟨p.column, (r : Int)⟩),
    (intRange (p.rank + 1) 8).map (fun r => ⟨p.column, r⟩) ]

/-- The four bishop rays of a position, in source order
(top-left, top-right, bottom-right, bottom-left). -/
def bishopLines (p : Position) : List (List Position) :=
  [ (intRange 1 (min p.column p.rank + 1)).map
      (fun i => ⟨p.column - i, p.rank - i⟩),
    (intRange 1 (min (7 - p.column) p.rank + 1)).map
      (fun i => ⟨p.column + i, p.rank - i⟩),
    (intRange 1 (min (7 - p.column) (7 - p.rank) + 1)).map
      (fun i => ⟨p.column + i, p.rank + i⟩),
    (intRange 1 (min p.column (7 - p.rank) + 1)).map
      (fun i => ⟨p.column - i, p.rank + i⟩) ]

/-- Accumulator of the defense-mode ray walk in rook_and_bishop_lines. -/
structure DefenseAcc where
  valid : List Position
  ccs : List (List Position)
  pins : List (List Position)
deriving DecidableEq, Repr

/-- One ray of the defense-mode branch of rook_and_bishop_lines: squares up
to (and including) the first occupied one are threatened; finding the enemy
king behind exactly one piece records a pinned line; finding it directly
overwrites counterChecks with the line so far and keeps walking (squares
behind the king stay threatened). -/
def walkLineDefense (b : Board) (selfPos : Position) (selfColor : Bool) :
    List Position → List Position → Bool → DefenseAcc → DefenseAcc
  | [], _, _, acc => acc
  | pos :: rest, lineSoFar, foundPiece, acc =>
    let acc1 := if foundPiece then acc
      else { acc with valid := acc.valid ++ [pos] }
    let lineSoFar1 := lineSoFar ++ [pos]
    match b.get_piece pos with
    | none => walkLineDefense b selfPos selfColor rest lineSoFar1 foundPiece acc1
    | some pid =>
      if pid = b.get_king (!selfColor) then
        let pinnedLine := lineSoFar1.dropLast ++ [selfPos]
        if foundPiece then
          { acc1 with pins := acc1.pins ++ [pinnedLine] }
        else
          walkLineDefense b selfPos selfColor rest lineSoFar1 foundPiece
            { acc1 with ccs := [pinnedLine] }
      else if foundPiece = false then
        walkLineDefense b selfPos selfColor rest lineSoFar1 true acc1
      else
        acc1

/-- rook_and_bishop_lines with includeDefense = True. -/
def rook_and_bishop_lines_defense (b : Board) (selfPos : Position)
    (selfColor : Bool) (lines : List (List Position)) : DefenseAcc :=
  lines.foldl (fun acc line => walkLineDefense b selfPos selfColor line [] false acc)
    ⟨[], [], []⟩

/-- One ray of the normal branch of rook_and_bishop_lines: empty squares and
the first enemy square are destinations; the walk stops at the first
occupied square. -/
def walkLineNormal (b : Board) (selfColor : Bool) : List Position → List Position
  | [] => []
  | pos :: rest =>
    let here := if valid_empty_or_capturing b selfColor pos then [pos] else []
    if (b.get_piece pos).isSome then here
    else here ++ walkLineNormal b selfColor rest

/-- rook_and_bishop_lines with includeDefense = False. -/
def rook_and_bishop_lines_normal (b : Board) (selfColor : Bool)
    (lines : List (List Position)) : List Position :=
  lines.foldl (fun acc line => acc ++ walkLineNormal b selfColor line) []

/-- Pawn.get_valid_moves raw body (normal mode, before the decorators):
forward one (two from the home rank), diagonal captures, en passant. -/
def Pawn.raw_moves (b : Board) (selfPos : Position) (selfColor : Bool) :
    List Position :=
  let c := selfPos.column
  let r := selfPos.rank
  let rk : Int := if selfColor then -1 else 1
  let rank1 : Int := if selfColor then 6 else 1
  let forwardMoves :=
    if b.get_piece ⟨c, r + rk⟩ = none then
      [(⟨c, r + rk⟩ : Position)] ++
      (if r = rank1 ∧ b.get_piece ⟨c, r + rk * 2⟩ = none then
        [(⟨c, r + rk * 2⟩ : Position)] else [])
    else []
  let captureLeft :=
    if c ≠ 0 ∧ valid_capturing b selfColor ⟨c - 1, r + rk⟩ then
      [(⟨c - 1, r + rk⟩ : Position)] else []
  let captureRight :=
    if c ≠ 7 ∧ valid_capturing b selfColor ⟨c + 1, r + rk⟩ then
      [(⟨c + 1, r + rk⟩ : Position)] else []
  let epRank1 : Int := if selfColor then 3 else 4
  let epRank2 : Int := if selfColor then 1 else 6
  let ep :=
    if r = epRank1 then
      match b.lastMove with
      | some m =>
        if (b.heap m.pieceId).ptype = PType.pawn ∧ m.start.rank = epRank2 ∧
            (b.heap m.pieceId).pos.rank = epRank1 then
          if m.start.column = c - 1 then [(⟨c - 1, r + rk⟩ : Position)]
          else if m.start.column = c + 1 then [(⟨c + 1, r + rk⟩ : Position)]
          else []
        else []
      | none => []
    else []
  forwardMoves ++ captureLeft ++ captureRight ++ ep

/-- Pawn.get_valid_moves with includeDefense = True: just the two attacking
diagonals (no bounds check), with a counter-check when one of them reads the
enemy king through Python's wrapping grid indexing. -/
def Pawn.defense_moves (b : Board) (selfPos : Position) (selfColor : Bool) :
    DefenseAcc :=
  let rk : Int := if selfColor then -1 else 1
  let positions : List Position :=
    [⟨selfPos.column - 1, selfPos.rank + rk⟩, ⟨selfPos.column + 1, selfPos.rank + rk⟩]
  let ccs :=
    if positions.any (fun p => b.get_piece p = some (b.get_king (!selfColor)))
    then [[selfPos]] else []
  ⟨positions, ccs, []⟩

/-- The eight knight offsets, in source order. -/
def knightCombos : List (Int × Int) :=
  [(-2, -1), (-1, -2), (-2, 1), (1, -2), (2, -1), (-1, 2), (2, 1), (1, 2)]

/-- Knight.get_valid_moves raw body (normal mode). -/
def Knight.raw_moves (b : Board) (selfPos : Position) (selfColor : Bool) :
    List Position :=
  knightCombos.foldl
    (fun acc d =>
      let pos : Position := ⟨selfPos.column + d.1, selfPos.rank + d.2⟩
      if pos.is_in_bounds ∧ valid_empty_or_capturing b selfColor pos then
        acc ++ [pos]
      else acc)
    []

/-- Knight.get_valid_moves with includeDefense = True. -/
def Knight.defense_moves (b : Board) (selfPos : Position) (selfColor : Bool) :
    DefenseAcc :=
  let inBounds := knightCombos.filterMap
    (fun d =>
      let pos : Position := ⟨selfPos.column + d.1, selfPos.rank + d.2⟩
      if pos.is_in_bounds then some pos else none)
  let ccs :=
    if inBounds.any (fun p => b.get_piece p = some (b.get_king (!selfColor)))
    then [[selfPos]] else []
  ⟨inBounds, ccs, []⟩

/-- King.get_valid_moves shared body.  The castling block also runs in
defense mode (noCastle is only set by the source's callers we never need). -/
def King.moves_body (b : Board) (selfPos : Position) (selfColor : Bool)
    (selfHasMoved : Bool) (includeDefense : Bool) : List Position :=
  let adj :=
    ((intRange (selfPos.column - 1) (selfPos.column + 2)).flatMap
      (fun c => (intRange (selfPos.rank - 1) (selfPos.rank + 2)).map
        (fun r => (⟨c, r⟩ : Position)))).filter
      (fun pos =>
        pos ≠ selfPos ∧ pos.is_in_bounds ∧
        (valid_empty_or_capturing b selfColor pos ∨ includeDefense) ∧
        (pos ∉ b.attackedSquares ∨ includeDefense))
  let castles :=
    if selfHasMoved = false ∧ Piece.try_check b selfPos selfPos = false then
      let rk : Int := if selfColor then 7 else 0
      let clearAt (c : Int) : Bool :=
        b.get_piece ⟨c, rk⟩ = none ∧ (⟨c, rk⟩ : Position) ∉ b.attackedSquares
      let queenside :=
        match b.get_piece ⟨0, rk⟩ with
        | some rid =>
          if (b.heap rid).ptype = PType.rook ∧ (b.heap rid).hasMoved = false ∧
              b.get_piece ⟨1, rk⟩ = none ∧ clearAt 2 ∧ clearAt 3 then
            [(⟨2, rk⟩ : Position)]
          else []
        | none => []
      let kingside :=
        match b.get_piece ⟨7, rk⟩ with
        | some rid =>
          if (b.heap rid).ptype = PType.rook ∧ (b.heap rid).hasMoved = false ∧
              clearAt 5 ∧ clearAt 6 then
            [(⟨6, rk⟩ : Position)]
          else []
        | none => []
      queenside ++ kingside
    else []
  adj ++ castles

/-- A piece's get_valid_moves with includeDefense = True, returning
(threatened squares, counter-check lines, pinned lines) and the board (the
Queen writes itself back into its own grid slot). -/
def pieceDefenseMoves (b : Board) (pid : Nat) : DefenseAcc × Board :=
  let o := b.heap pid
  match o.ptype with
  | PType.pawn => (Pawn.defense_moves b o.pos o.color, b)
  | PType.knight => (Knight.defense_moves b o.pos o.color, b)
  | PType.rook => (rook_and_bishop_lines_defense b o.pos o.color (rookLines o.pos), b)
  | PType.bishop => (rook_and_bishop_lines_defense b o.pos o.color (bishopLines o.pos), b)
  | PType.queen =>
    let rookD := rook_and_bishop_lines_defense b o.pos o.color (rookLines o.pos)
    let bishopD := rook_and_bishop_lines_defense b o.pos o.color (bishopLines o.pos)
    (⟨rookD.valid ++ bishopD.valid, rookD.ccs ++ bishopD.ccs,
      rookD.pins ++ bishopD.pins⟩,
     { b with grid := pyGridSet b.grid (gridIdx o.pos) (some pid) })
  | PType.king => (⟨King.moves_body b o.pos o.color o.hasMoved true, [], []⟩, b)

/-- A piece's get_valid_moves in normal mode, after the color_to_play and
filter_checks decorators, returning the board as well (the Queen writes
itself back into its own grid slot whenever its body runs). -/
def pieceNormalMoves (b : Board) (pid : Nat) : List Position × Board :=
  let o := b.heap pid
  if colorToPlayOk b o.color then
    match o.ptype with
    | PType.pawn =>
      ((Pawn.raw_moves b o.pos o.color).filter
        (fun p => Piece.try_check b o.pos p = false), b)
    | PType.knight =>
      ((Knight.raw_moves b o.pos o.color).filter
        (fun p => Piece.try_check b o.pos p = false), b)
    | PType.rook =>
      ((rook_and_bishop_lines_normal b o.color (rookLines o.pos)).filter
        (fun p => Piece.try_check b o.pos p = false), b)
    | PType.bishop =>
      ((rook_and_bishop_lines_normal b o.color (bishopLines o.pos)).filter
        (fun p => Piece.try_check b o.pos p = false), b)
    | PType.queen =>
      -- transform_to(Rook) / transform_to(Bishop) build throwaway pieces at
      -- the queen's square; their own decorators filter with try_check, and
      -- the queen's filter_checks filters the concatenation once more
      let rookPart := (rook_and_bishop_lines_normal b o.color (rookLines o.pos)).filter
        (fun p => Piece.try_check b o.pos p = false)
      let bishopPart := (rook_and_bishop_lines_normal b o.color (bishopLines o.pos)).filter
        (fun p => Piece.try_check b o.pos p = false)
      (((rookPart ++ bishopPart).filter
        (fun p => Piece.try_check b o.pos p = false)),
       { b with grid := pyGridSet b.grid (gridIdx o.pos) (some pid) })
    | PType.king =>
      (King.moves_body b o.pos o.color o.hasMoved false, b)
  else ([], b)

/-- Board.get_attacked_squares: union of all defense moves of the given
color, plus the counter checks and pinned lines found on the way.  The
source wraps attackedSquares in set(), which only affects duplicates; the
list is only ever read through membership. -/
def Board.get_attacked_squares (b : Board) (color : Bool) :
    (List Position × List (List Position) × List (List Position)) × Board :=
  (b.get_pieces (some color)).foldl
    (fun (acc : (List Position × List (List Position) × List (List Position)) × Board) pid =>
      let ((att, ccs, pins), bcur) := acc
      let (d, bnext) := pieceDefenseMoves bcur pid
      ((att ++ d.valid,
        (if d.ccs ≠ [] then ccs ++ d.ccs else ccs),
        pins ++ d.pins), bnext))
    (([], [], []), b)

/-- King.is_under_check: membership of the king's square in the stored
attackedSquares cache. -/
def is_under_check (b : Board) (kingId : Nat) : Bool :=
  decide ((b.heap kingId).pos ∈ b.attackedSquares)

/-- Board.get_valid_moves: pieces (of the color, in list order) paired with
their nonempty normal-mode move lists, threading the board through each
generator. -/
def Board.get_valid_moves (b : Board) (color : Option Bool) :
    List (Nat × List Position) × Board :=
  (b.get_pieces color).foldl
    (fun (acc : List (Nat × List Position) × Board) pid =>
      let (entries, bcur) := acc
      let (moves, bnext) := pieceNormalMoves bcur pid
      ((if moves ≠ [] then entries ++ [(pid, moves)] else entries), bnext))
    ([], b)

/-- Count of pieces of one class in a list (the piece_count dict lookup). -/
def countType (b : Board) (l : List Nat) (t : PType) : Nat :=
  (l.filter (fun pid => (b.heap pid).ptype = t)).length

/-- Board.end_game: result codes 0 = white wins, 1 = black wins, 2 = draw. -/
def Board.end_game (b : Board) (whiteWins blackWins stalemate : Bool) : Board :=
  if whiteWins then { b with result := some 0 }
  else if blackWins then { b with result := some 1 }
  else if stalemate then { b with result := some 2 }
  else b

/-- Board.round_check: after a move, if the side now to move has no valid
move it is checkmate (win for the mover) or stalemate; otherwise the
insufficient-material draws are tested.  round_check is only called right
after a move, so lastMove is present; the none branch is unreachable. -/
def Board.round_check (b : Board) : Board :=
  match b.lastMove with
  | none => b
  | some lm =>
    let white := b.get_pieces (some true)
    let black := b.get_pieces (some false)
    let color := !(b.heap lm.pieceId).color
    let (moves, b1) := b.get_valid_moves (some color)
    if moves = [] then
      if is_under_check b1 (b1.get_king color) then
        if color then b1.end_game false true false
        else b1.end_game true false false
      else b1.end_game false false true
    else if white.length ≤ 2 ∧ black.length ≤ 2 then
      let b2 := if white.length = 1 ∧ black.length = 1 then
        b1.end_game false false true else b1
      let b3 :=
        if white.length = 2 ∧ black.length = 2 ∧
            countType b2 white PType.bishop = 1 ∧
            countType b2 black PType.bishop ≠ 0 then
          -- the source unpacks exactly the two bishops of the two lists
          match (white ++ black).filter
              (fun pid => (b2.heap pid).ptype = PType.bishop) with
          | [x, y] =>
            if (b2.heap x).diagonal = (b2.heap y).diagonal then
              b2.end_game false false true
            else b2
          | _ => b2
        else b2
      let b4 :=
        if white.length = 1 ∧ black.length = 2 ∧
            (countType b3 black PType.bishop = 1 ∨
             countType b3 black PType.knight = 1) then
          b3.end_game false false true
        else b3
      if black.length = 1 ∧ white.length = 2 ∧
          (countType b4 white PType.bishop = 1 ∨
           countType b4 white PType.knight = 1) then
        b4.end_game false false true
      else b4
    else b1

/-- Board.is_enpassant: a pawn changing file onto an empty square. -/
def Board.is_enpassant (b : Board) (pid : Nat) (pos : Position) : Bool :=
  (b.heap pid).ptype = PType.pawn ∧
  (b.heap pid).pos.column ≠ pos.column ∧
  b.get_piece pos = none

/-- Board.enpassant: moves the capturing pawn, then merely LOOKS UP the
pawn being captured and returns it.  Despite the source comment (Clears the
enpassanted pawn) the captured pawn is neither removed from the piece list
nor cleared from the grid. -/
def Board.enpassant (b : Board) (pid : Nat) (pos : Position) :
    Option Nat × Board :=
  let b1 := b.move_piece pid pos
  let o := b1.heap pid
  let capPos : Position :=
    if o.color then ⟨o.pos.column, o.pos.rank + 1⟩
    else ⟨o.pos.column, o.pos.rank - 1⟩
  (b1.get_piece capPos, b1)

/-- Board.is_castling: an unmoved king moving to file 2 or 6. -/
def Board.is_castling (b : Board) (pid : Nat) (pos : Position) : Bool :=
  (b.heap pid).ptype = PType.king ∧ (b.heap pid).hasMoved = false ∧
  (pos.column = 2 ∨ pos.column = 6)

/-- Board.is_promotion: a pawn arriving at rank 0 or 7. -/
def Board.is_promotion (b : Board) (pid : Nat) (pos : Position) : Bool :=
  (b.heap pid).ptype = PType.pawn ∧ (pos.rank = 0 ∨ pos.rank = 7)

/-- Board.castle: moves the rook next to the king, then the king.  (The
returned side indicator of the source is discarded by Board.move.)  If the
expected rook square is empty Python would raise; that branch returns the
board unchanged and is unreachable on legal castling moves. -/
def Board.castle (b : Board) (pid : Nat) (pos : Position) : Board :=
  let o := b.heap pid
  if pos.column = 2 then
    match b.get_piece ⟨0, o.pos.rank⟩ with
    | some rid =>
      let b1 := b.move_piece rid ⟨3, (b.heap rid).pos.rank⟩
      b1.move_piece pid pos
    | none => b
  else
    match b.get_piece ⟨7, o.pos.rank⟩ with
    | some rid =>
      let b1 := b.move_piece rid ⟨5, (b.heap rid).pos.rank⟩
      b1.move_piece pid pos
    | none => b

/-- Board.move: classify (en passant / castling / promotion / normal with
capture), apply, then recompute the mover's attack caches, the opposing
king's check flag, and the game result.  Returns the Move record. -/
def Board.move (b : Board) (pid : Nat) (pos : Position) : MoveV × Board :=
  let o := b.heap pid
  let move0 : MoveV :=
    { start := o.pos, stop := pos, pieceId := pid,
      capturedPiece := b.get_piece pos, enpassant := false, castling := false,
      promotion := false, originalHasMoved := o.hasMoved }
  let step : MoveV × Board :=
    if b.is_enpassant pid pos then
      let (cap, b1) := b.enpassant pid pos
      ({ move0 with enpassant := true, capturedPiece := cap }, b1)
    else if b.is_castling pid pos then
      ({ move0 with castling := true }, b.castle pid pos)
    else if b.is_promotion pid pos then
      let b1 := b.move_piece pid pos
      ({ move0 with promotion := true }, { b1 with promotion := some pid })
    else
      match b.get_piece pos with
      | some cap =>
        let b1 := b.remove_piece cap
        ({ move0 with capturedPiece := some cap }, b1.move_piece pid pos)
      | none => (move0, b.move_piece pid pos)
  let (mv, bA) := step
  let ((att, ccs, pins), bB) := bA.get_attacked_squares o.color
  let bC := { bB with
    attackedSquares := att
    counterChecks := ccs
    pinnedLines := pins
    pinnedSquares := pins.foldl (fun acc line => acc ++ line) [] }
  let bD := { bC with underCheck := is_under_check bC (bC.get_king (!o.color)) }
  (mv, bD.round_check)

/-- Board.revert.  move.castling is the boolean True, and True == 1 in
Python, so the queenside branch is always taken: the rook is looked up at
file 3; after a kingside castle that square is empty and move_piece(None,..)
raises TypeError, modelled as none.  Reverting a promotion move builds a
fresh Pawn object (transform_to) and moves that object back, while the
original pawn object is left in the piece list. -/
def Board.revert (b : Board) (move : MoveV) (previousLastMove : Option MoveV) :
    Option Board :=
  let b0 := { b with result := none }
  let idAndBoard : Nat × Board :=
    if move.promotion then
      let oldObj := b0.heap move.pieceId
      allocPiece b0 (Piece.init PType.pawn oldObj.pos oldObj.color)
    else (move.pieceId, b0)
  let pieceId := idAndBoard.1
  let b1 := idAndBoard.2
  let afterCastle : Option Board :=
    if move.castling then
      let kr := (b1.heap pieceId).pos.rank
      match b1.get_piece ⟨3, kr⟩ with
      | some rid =>
        let bR := b1.move_piece rid ⟨0, kr⟩
        some { bR with heap := heapSetHasMoved bR.heap rid false }
      | none => none
    else some b1
  match afterCastle with
  | none => none
  | some b2 =>
    let b3 := b2.move_piece pieceId move.start
    let b4 := match move.capturedPiece with
      | some cap => b3.add_piece cap
      | none => b3
    let b5 :=
      if (b4.heap pieceId).ptype = PType.rook ∨ (b4.heap pieceId).ptype = PType.king then
        { b4 with heap := heapSetHasMoved b4.heap pieceId move.originalHasMoved }
      else b4
    some { b5 with lastMove := previousLastMove }

/-- Outcome of Board.promote: ok would carry the successfully mutated board,
error carries the board state at the moment a Python exception is raised
(mutations made before the raise persist). -/
inductive PromoteResult where
  | ok (b : Board)
  | error (b : Board)

/-- Whether the promote call raised. -/
def PromoteResult.isError : PromoteResult → Bool
  | .ok _ => false
  | .error _ => true

/-- The board carried by a promote outcome. -/
def PromoteResult.board : PromoteResult → Board
  | .ok b => b
  | .error b => b

/-- Board.promote: transform_to builds the promoted piece, set_piece and
add_piece install it, and then the source calls remove_piece(promoteTo) with
the piece CLASS instead of the pawn instance.  No element of the pieces list
compares equal to a class, so list.remove raises ValueError with the new
piece installed, the pawn still in the list, and promotion never cleared.
With no pending promotion, transform_to on None raises AttributeError. -/
def Board.promote (b : Board) (promoteTo : PType) : PromoteResult :=
  match b.promotion with
  | none => PromoteResult.error b
  | some pawnId =>
    let o := b.heap pawnId
    let (newId, b1) := allocPiece b (Piece.init promoteTo o.pos o.color)
    let b2 := b1.set_piece newId none
    let b3 := b2.add_piece newId
    PromoteResult.error b3

/-- Python float evaluations in ai.py: integers plus the two math.inf
sentinels used to seed alpha/beta and the running extremum. -/
inductive Score where
  | neginf
  | num (n : Int)
  | posinf
deriving DecidableEq, Repr

/-- Strict comparison of scores (Python's <). -/
def Score.blt : Score → Score → Bool
  | .neginf, .neginf => false
  | .neginf, _ => true
  | .num _, .neginf => false
  | .num a, .num b => a < b
  | .num _, .posinf => true
  | .posinf, _ => false

/-- max(a, b): the second argument wins only when strictly larger, matching
Python max for this use. -/
def Score.max2 (a b : Score) : Score := if Score.blt a b then b else a

/-- min(a, b). -/
def Score.min2 (a b : Score) : Score := if Score.blt b a then b else a

/-- The zobristTable dict of one get_move call: evaluation per board key. -/
abbrev Table : Type := List (Nat × Score)

/-- dict.get. -/
def tableGet (t : Table) (k : Nat) : Option Score :=
  match t.find? (fun e => e.1 = k) with
  | some e => some e.2
  | none => none

/-- dict assignment: replace the entry for the key, else append. -/
def tableSet (t : Table) (k : Nat) (v : Score) : Table :=
  if (t.find? (fun e => e.1 = k)).isSome then
    t.map (fun e => if e.1 = k then (k, v) else e)
  else t ++ [(k, v)]

/-- evaluate from ai.py: 104 for result 0 (white wins), -104 for result 1
(black wins), 0 for any other concluded result; otherwise the signed
material sum over the live pieces. -/
def evaluate (b : Board) : Int :=
  match b.result with
  | some r => if r = 0 then 104 else if r = 1 then -104 else 0
  | none =>
    b.pieces.foldl
      (fun acc pid =>
        let o := b.heap pid
        if o.color then acc + o.ptype.points else acc - o.ptype.points)
      0

/-- One (alpha, beta, piece, destination) record taken immediately before a
board.move call inside the minimax node loop. -/
structure TraceEntry where
  alpha : Score
  beta : Score
  pieceId : Nat
  pos : Position
deriving DecidableEq, Repr

/-- The running state of one minimax node's double loop. -/
structure NodeState where
  maxEval : Score
  bestMove : Option MoveV
  alpha : Score
  beta : Score
  board : Board
  table : Table
  crashed : Bool
  trace : List TraceEntry

/-- The child evaluation of a node: minimax(not color, depth-1, .., ..)
with color and depth already fixed, taking the current board, table, alpha
and beta. -/
abbrev ChildFn : Type := Board → Table → Score → Score → Score × Option MoveV × Board × Table

/-- The inner `for position in positions` loop of minimax: record the trace
entry, apply the move, evaluate the child, revert, store the evaluation
under the NODE's zobrist key, update the extremum and alpha (white) or beta
(black), and break once alpha >= beta.  A revert that raises (kingside
castle undo) sets crashed and stops all further exploration. -/
def inner_loop (child : ChildFn) (color : Bool) (nodeKey : Nat)
    (prevMove : Option MoveV) (pid : Nat) :
    List Position → NodeState → NodeState
  | [], st => st
  | pos :: rest, st =>
    if st.crashed then st
    else
      let entry : TraceEntry := ⟨st.alpha, st.beta, pid, pos⟩
      let st1 := { st with trace := st.trace ++ [entry] }
      let moved := st1.board.move pid pos
      let mv := moved.1
      let childRes := child moved.2 st1.table st1.alpha st1.beta
      let ev := childRes.1
      let b2 := childRes.2.2.1
      let t2 := childRes.2.2.2
      match b2.revert mv prevMove with
      | none => { st1 with crashed := true, board := b2, table := t2 }
      | some b3 =>
        let t3 := tableSet t2 nodeKey ev
        if color then
          let better := Score.blt st1.maxEval ev
          let mx := if better then ev else st1.maxEval
          let bm := if better then some mv else st1.bestMove
          let a := Score.max2 st1.alpha mx
          let st2 := { st1 with maxEval := mx, bestMove := bm, alpha := a,
                                board := b3, table := t3 }
          if Score.blt a st2.beta = false then st2
          else inner_loop child color nodeKey prevMove pid rest st2
        else
          let better := Score.blt ev st1.maxEval
          let mn := if better then ev else st1.maxEval
          let bm := if better then some mv else st1.bestMove
          let bt := Score.min2 st1.beta mn
          let st2 := { st1 with maxEval := mn, bestMove := bm, beta := bt,
                                board := b3, table := t3 }
          if Score.blt st2.alpha bt = false then st2
          else inner_loop child color nodeKey prevMove pid rest st2

/-- The outer `for piece, positions in ...` loop of minimax.  The alpha-beta
break only leaves the inner loop; the outer loop always proceeds to the next
piece. -/
def node_loop (child : ChildFn) (color : Bool) (nodeKey : Nat)
    (prevMove : Option MoveV) :
    List (Nat × List Position) → NodeState → NodeState
  | [], st => st
  | (pid, positions) :: rest, st =>
    node_loop child color nodeKey prevMove rest
      (inner_loop child color nodeKey prevMove pid positions st)

/-- minimax from ai.py, with board and transposition table threaded
explicitly: check the cache (no depth comparison), then the terminal
condition, then expand (piece, destination) pairs of the color to move. -/
def minimax (tbl : ZTable) :
    Nat → Board → Table → Bool → Score → Score →
    Score × Option MoveV × Board × Table
  | 0, b, t, _, _, _ =>
    let key := b.get_zobrist_key tbl
    match tableGet t key with
    | some v => (v, b.lastMove, b, t)
    | none => (Score.num (evaluate b), b.lastMove, b, t)
  | d + 1, b, t, color, alpha, beta =>
    let key := b.get_zobrist_key tbl
    match tableGet t key with
    | some v => (v, b.lastMove, b, t)
    | none =>
      if b.result ≠ none then (Score.num (evaluate b), b.lastMove, b, t)
      else
        let prevMove := b.lastMove
        let (moves, b1) := b.get_valid_moves (some color)
        let st0 : NodeState :=
          { maxEval := if color then Score.neginf else Score.posinf,
            bestMove := none, alpha := alpha, beta := beta, board := b1,
            table := t, crashed := false, trace := [] }
        let st := node_loop (fun b2 t2 a2 bt2 => minimax tbl d b2 t2 (!color) a2 bt2)
          color key prevMove moves st0
        (st.maxEval, st.bestMove, st.board, st.table)

/-- The (alpha, beta, piece, destination) trace of one minimax node: the
records of every board.move call made directly at that node, in order. -/
def nodeTrace (tbl : ZTable) (depth : Nat) (b : Board) (t : Table)
    (color : Bool) (alpha beta : Score) : List TraceEntry :=
  match depth with
  | 0 => []
  | d + 1 =>
    let key := b.get_zobrist_key tbl
    match tableGet t key with
    | some _ => []
    | none =>
      if b.result ≠ none then []
      else
        let prevMove := b.lastMove
        let (moves, b1) := b.get_valid_moves (some color)
        let st0 : NodeState :=
          { maxEval := if color then Score.neginf else Score.posinf,
            bestMove := none, alpha := alpha, beta := beta, board := b1,
            table := t, crashed := false, trace := [] }
        (node_loop (fun b2 t2 a2 bt2 => minimax tbl d b2 t2 (!color) a2 bt2)
          color key prevMove moves st0).trace

/-- An enumeration of the six piece classes, used to build a concrete
zobrist table for the concrete evaluations below. -/
def tIndex : PType → Nat
  | .pawn => 0
  | .rook => 1
  | .knight => 2
  | .bishop => 3
  | .queen => 4
  | .king => 5

/-- A concrete zobrist table assigning distinct small values to every
(class, color, square) triple, standing in for the random 64-bit table of
zobrist_init in the concrete evaluations. -/
def tblP : ZTable :=
  fun t c i => 2 * (tIndex t + 6 * ((if c then 1 else 0) + 2 * i.toNat)) + 2

/-- Modelled from the spec: the side to move is white when no move has been
made, otherwise the opposite of the last mover (the turn convention of
color_to_play and of ai.get_move). -/
def sideToMove (b : Board) : Bool :=
  match b.lastMove with
  | none => true
  | some m => !(b.heap m.pieceId).color

/-- Modelled from the amended claim: the extra hash bit equals the color of
the piece that made the last move (1 if white moved last, 0 if black), and
is 1 when no move has been made yet. -/
def lastMoverBit (b : Board) : Nat :=
  match b.lastMove with
  | none => 1
  | some m => if (b.heap m.pieceId).color then 1 else 0

/-- Modelled from the spec: the XOR of all live pieces' zobrist keys. -/
def piecesKeyXor (tbl : ZTable) (b : Board) : Nat :=
  b.pieces.foldl (fun k pid => k ^^^ Piece.get_zobrist_key tbl (b.heap pid)) 0

/-- Modelled from the spec: the material sum over all living pieces,
positive for white pieces and negative for black ones. -/
def specMaterial (b : Board) : Int :=
  (b.pieces.map (fun pid =>
    if (b.heap pid).color then (b.heap pid).ptype.points
    else -(b.heap pid).ptype.points)).sum

/-- Modelled from the spec: 104 for a white win, -104 for a black win, 0 for
a draw, and otherwise the material sum (result codes as set by end_game:
0 white wins, 1 black wins, 2 draw). -/
def specEvaluate (b : Board) : Int :=
  if b.result = some 0 then 104
  else if b.result = some 1 then -104
  else if b.result = some 2 then 0
  else specMaterial b

/-- Self-check-safety scenario: White pawn h2-area, White king e1, White
rook e2 pinned by the black rook e8, black bishop able to give check.
In source coordinates: pawn (7,6), king (4,7), rook (4,6) white; king
(0,0), rook (4,0), bishop (3,2) black. -/
def bc1_0 : Board := Board.init
  [Piece.init PType.pawn ⟨7,6⟩ true, Piece.init PType.king ⟨4,7⟩ true,
   Piece.init PType.rook ⟨4,6⟩ true, Piece.init PType.king ⟨0,0⟩ false,
   Piece.init PType.rook ⟨4,0⟩ false, Piece.init PType.bishop ⟨3,2⟩ false]

/-- After White's waiting pawn move (7,6)-(7,5). -/
def bc1_1 : Board := (bc1_0.move 0 ⟨7,5⟩).2

/-- After Black's bishop check (3,2)-(1,4): White is in check, the white
rook on (4,6) is pinned by the rook on (4,0). -/
def bc1_2 : Board := (bc1_1.move 5 ⟨1,4⟩).2

/-- After White blocks the check with the pinned rook, (4,6)-(3,6): the
white king is now attacked by the black rook. -/
def bc1_3 : Board := (bc1_2.move 2 ⟨3,6⟩).2

/-- En-passant scenario: white pawn on (4,3), black pawn on (3,1). -/
def bep0 : Board := Board.init
  [Piece.init PType.pawn ⟨4,3⟩ true, Piece.init PType.king ⟨7,7⟩ true,
   Piece.init PType.king ⟨0,0⟩ false, Piece.init PType.pawn ⟨3,1⟩ false]

/-- After White's waiting king move (7,7)-(7,6). -/
def bep1 : Board := (bep0.move 1 ⟨7,6⟩).2

/-- After Black's double pawn push (3,1)-(3,3), enabling en passant. -/
def bep2 : Board := (bep1.move 3 ⟨3,3⟩).2

/-- The Move record of White's en-passant capture (4,3)x(3,2). -/
def epmv : MoveV := (bep2.move 0 ⟨3,2⟩).1

/-- The board after White's en-passant capture. -/
def bep3 : Board := (bep2.move 0 ⟨3,2⟩).2

/-- Promotion scenario: white pawn on (2,1) one step from promotion. -/
def bpr0 : Board := Board.init
  [Piece.init PType.pawn ⟨2,1⟩ true, Piece.init PType.king ⟨7,7⟩ true,
   Piece.init PType.king ⟨0,5⟩ false]

/-- The Move record of the promotion push (2,1)-(2,0). -/
def prmv : MoveV := (bpr0.move 0 ⟨2,0⟩).1

/-- The board with the promotion pending (promotion = the pawn, id 0). -/
def bpr1 : Board := (bpr0.move 0 ⟨2,0⟩).2

/-- The board after reverting the promotion move (revert succeeds; the
fallback of getD is never used). -/
def bpr2 : Board := (bpr1.revert prmv none).getD bpr1

/-- Zobrist scenario: two kings and two rooks. -/
def bz0 : Board := Board.init
  [Piece.init PType.king ⟨4,7⟩ true, Piece.init PType.rook ⟨0,7⟩ true,
   Piece.init PType.king ⟨4,0⟩ false, Piece.init PType.rook ⟨0,0⟩ false]

/-- After White's rook move (0,7)-(0,6). -/
def bz1 : Board := (bz0.move 1 ⟨0,6⟩).2

/-- After Black's rook move (0,0)-(0,1): white is to move again, as in bz0,
but the hash's extra bit now comes from a black last mover. -/
def bz2 : Board := (bz1.move 3 ⟨0,1⟩).2

/-- Alpha-beta scenario: white king (4,7) and rook (0,4) against a lone
black king; the king is placed so none of its moves lands on file 2 or 6
(which Board.is_castling would misclassify as castling). -/
def bc7 : Board := Board.init
  [Piece.init PType.king ⟨4,7⟩ true, Piece.init PType.rook ⟨0,4⟩ true,
   Piece.init PType.king ⟨0,0⟩ false]

/-- A board whose queen is not written in its own grid slot: built from a
legal position by Board.clear_square on the queen's square. -/
def bq0 : Board := Board.init
  [Piece.init PType.queen ⟨3,3⟩ true, Piece.init PType.king ⟨7,7⟩ true,
   Piece.init PType.king ⟨0,0⟩ false]

/-- bq0 with the queen's grid slot cleared. -/
def bBad : Board := bq0.clear_square ⟨3,3⟩

/-- A small healthy board (white pawn and the two kings) used as the
concrete witness input. -/
def bWit : Board := Board.init
  [Piece.init PType.pawn ⟨0,4⟩ true, Piece.init PType.king ⟨7,7⟩ true,
   Piece.init PType.king ⟨0,0⟩ false]

/-- Initial node state on bWit for the inner-loop witness. -/
def stWit : NodeState :=
  { maxEval := Score.neginf, bestMove := none, alpha := Score.neginf,
    beta := Score.posinf, board := bWit, table := [], crashed := false,
    trace := [] }

/-- A constant child evaluation for the inner-loop witness. -/
def childWit : ChildFn := fun b t _ _ => (Score.num 0, none, b, t)

/-! ## Helper lemmas -/

/-- Shifting the accumulator out of the zobrist XOR fold. -/
lemma zobrist_foldl_shift (tbl : ZTable) (h : Nat → PieceObj) :
    ∀ (l : List Nat) (a : Nat),
      l.foldl (fun k pid => k ^^^ Piece.get_zobrist_key tbl (h pid)) a
        = a ^^^ l.foldl (fun k pid => k ^^^ Piece.get_zobrist_key tbl (h pid)) 0
  | [], a => by simp
  | x :: l, a => by
    simp only [List.foldl_cons]
    rw [zobrist_foldl_shift tbl h l (a ^^^ Piece.get_zobrist_key tbl (h x)),
      zobrist_foldl_shift tbl h l (0 ^^^ Piece.get_zobrist_key tbl (h x))]
    simp [Nat.xor_assoc]

/-- XOR cancellation. -/
lemma xor_cancel_r (a b : Nat) : a ^^^ b ^^^ b = a := by
  simp [Nat.xor_assoc]

/-- Shifting the accumulator out of the evaluate fold. -/
lemma evaluate_foldl (b : Board) :
    ∀ (l : List Nat) (a : Int),
      l.foldl (fun acc pid =>
        let o := b.heap pid
        if o.color then acc + o.ptype.points else acc - o.ptype.points) a
      = a + (l.map (fun pid =>
          if (b.heap pid).color then (b.heap pid).ptype.points
          else -(b.heap pid).ptype.points)).sum
  | [], a => by simp
  | x :: l, a => by
    simp only [List.foldl_cons, List.map_cons, List.sum_cons]
    rw [evaluate_foldl b l]
    by_cases h : (b.heap x).color <;> simp [h] <;> ring

/-- Writing back the very piece a slot already holds does not change the
grid. -/
lemma pyGridSet_self (g : Fin 64 → Option Nat) (i : Int) (pid : Nat)
    (h : pyGridGet g i = some pid) : pyGridSet g i (some pid) = g := by
  unfold pyGridGet at h
  unfold pyGridSet
  by_cases h1 : 0 ≤ i ∧ i < 64
  · rw [dif_pos h1] at h
    rw [dif_pos h1]
    funext j
    by_cases hj : j = (⟨i.toNat, by omega⟩ : Fin 64)
    · simp [hj, ← h]
    · simp [hj]
  · rw [dif_neg h1] at h
    rw [dif_neg h1]
    by_cases h2 : -64 ≤ i ∧ i < 0
    · rw [dif_pos h2] at h
      rw [dif_pos h2]
      funext j
      by_cases hj : j = (⟨(i + 64).toNat, by omega⟩ : Fin 64)
      · simp [hj, ← h]
      · simp [hj]
    · rw [dif_neg h2] at h
      exact absurd h (by simp)

/-- C6 (amended): the zobrist key is the XOR of all live pieces' keys XOR a
bit that is 1 when white made the last move or no move has been made, and 0
when black made the last move. -/
theorem c6_theorem (tbl : ZTable) (b : Board) :
    b.get_zobrist_key tbl = lastMoverBit b ^^^ piecesKeyXor tbl b := by
  unfold Board.get_zobrist_key lastMoverBit piecesKeyXor
  cases b.lastMove with
  | none => exact zobrist_foldl_shift tbl b.heap b.pieces 1
  | some m => exact zobrist_foldl_shift tbl b.heap b.pieces _

/-- C6 counterexample: no function of the side to move alone yields the
extra hash bit — the initial position (white to move) carries bit 1 while a
later white-to-move position (after a black move) carries bit 0. -/
theorem c6_counterexample :
    ¬ ∃ f : Bool → Nat, ∀ b : Board,
      b.get_zobrist_key tblP = f (sideToMove b) ^^^ piecesKeyXor tblP b := by
  rintro ⟨f, hf⟩
  have h0 := hf bz0
  have h2 := hf bz2
  rw [show sideToMove bz0 = true by decide] at h0
  rw [show sideToMove bz2 = true by decide] at h2
  have e0 : f true = bz0.get_zobrist_key tblP ^^^ piecesKeyXor tblP bz0 := by
    rw [h0, Nat.xor_assoc]
    simp
  have e2 : f true = bz2.get_zobrist_key tblP ^^^ piecesKeyXor tblP bz2 := by
    rw [h2, Nat.xor_assoc]
    simp
  have : bz0.get_zobrist_key tblP ^^^ piecesKeyXor tblP bz0 =
      bz2.get_zobrist_key tblP ^^^ piecesKeyXor tblP bz2 := by
    rw [← e0, ← e2]
  exact absurd this (by decide)

/-- C8: evaluate returns 104 / -104 / 0 on concluded games (white win,
black win, draw) and the signed material sum otherwise. -/
theorem c8_theorem (b : Board)
    (h : b.result = none ∨ b.result = some 0 ∨ b.result = some 1 ∨
      b.result = some 2) :
    evaluate b = specEvaluate b := by
  unfold evaluate specEvaluate specMaterial
  rcases h with h | h | h | h
  · rw [h]
    simpa using evaluate_foldl b b.pieces 0
  · rw [h]
    simp
  · rw [h]
    simp
  · rw [h]
    simp

/-- C8 witness at a concrete running game. -/
theorem c8_witness :
    (bWit.result = none ∨ bWit.result = some 0 ∨ bWit.result = some 1 ∨
      bWit.result = some 2) ∧ evaluate bWit = specEvaluate bWit :=
  ⟨by decide, c8_theorem bWit (by decide)⟩

/-- C9 (amended): Position construction never fails, and a negative flat
index in [-64, -1] is silently wrapped by the grid lookup instead of
erroring. -/
theorem c9_theorem :
    (∀ c r : Int, Position.init c r = Except.ok ⟨c, r⟩) ∧
    (∀ (b : Board) (p : Position), -64 ≤ gridIdx p → gridIdx p < 0 →
      b.getPieceChecked p = Except.ok (pyGridGet b.grid (gridIdx p + 64))) := by
  constructor
  · intro c r
    rfl
  · intro b p h1 h2
    unfold Board.getPieceChecked pyGridGet
    rw [dif_neg (by omega : ¬(0 ≤ gridIdx p ∧ gridIdx p < 64)),
      dif_pos (⟨h1, h2⟩ : -64 ≤ gridIdx p ∧ gridIdx p < 0),
      dif_pos (by omega : 0 ≤ gridIdx p + 64 ∧ gridIdx p + 64 < 64)]

/-- C9 witness: Position (-1, 0) has flat index -1; get_piece silently
reads the wrapped slot. -/
theorem c9_witness :
    (-64 ≤ gridIdx ⟨-1, 0⟩ ∧ gridIdx (⟨-1, 0⟩ : Position) < 0) ∧
    bWit.getPieceChecked ⟨-1, 0⟩ =
      Except.ok (pyGridGet bWit.grid (gridIdx (⟨-1, 0⟩ : Position) + 64)) :=
  ⟨by decide, c9_theorem.2 bWit ⟨-1, 0⟩ (by decide) (by decide)⟩

/-- C9 counterexample: constructing an out-of-bounds Position succeeds (no
construction-time error), and an out-of-bounds position is accepted by
get_piece, wrapping to slot 63. -/
theorem c9_counterexample :
    Position.init 9 (-3) = Except.ok ⟨9, -3⟩ ∧
    Position.is_in_bounds ⟨9, -3⟩ = false ∧
    bWit.getPieceChecked ⟨-1, 0⟩ = Except.ok (bWit.grid 63) :=
  ⟨rfl, by decide, by rfl⟩

/-- The board returned by defense-mode generation: unchanged, except the
queen branch which rewrites the queen into its own grid slot. -/
lemma pieceDefenseMoves_board (b : Board) (pid : Nat) :
    (pieceDefenseMoves b pid).2 = b ∨
    ((b.heap pid).ptype = PType.queen ∧
     (pieceDefenseMoves b pid).2 =
       { b with grid := pyGridSet b.grid (gridIdx (b.heap pid).pos) (some pid) }) := by
  cases h : (b.heap pid).ptype <;> simp [pieceDefenseMoves, h]

/-- The board returned by normal-mode generation: unchanged, except the
queen branch (when the color check lets the body run). -/
lemma pieceNormalMoves_board (b : Board) (pid : Nat) :
    (pieceNormalMoves b pid).2 = b ∨
    ((b.heap pid).ptype = PType.queen ∧
     (pieceNormalMoves b pid).2 =
       { b with grid := pyGridSet b.grid (gridIdx (b.heap pid).pos) (some pid) }) := by
  by_cases hc : colorToPlayOk b (b.heap pid).color <;>
    cases h : (b.heap pid).ptype <;> simp [pieceNormalMoves, h, hc]

/-- C10 (amended): move generation leaves every board component unchanged,
except that the Queen generator rewrites the queen's own grid slot with the
queen itself whenever its body runs; when the queen already occupies its
slot (and always for non-queen pieces) the board is entirely unchanged. -/
theorem c10_theorem (b : Board) (pid : Nat) :
    ((pieceDefenseMoves b pid).2.pieces = b.pieces ∧
     (pieceDefenseMoves b pid).2.heap = b.heap ∧
     (pieceDefenseMoves b pid).2.nextId = b.nextId ∧
     (pieceDefenseMoves b pid).2.lastMove = b.lastMove ∧
     (pieceDefenseMoves b pid).2.result = b.result ∧
     (pieceDefenseMoves b pid).2.promotion = b.promotion ∧
     (pieceDefenseMoves b pid).2.attackedSquares = b.attackedSquares ∧
     (pieceDefenseMoves b pid).2.counterChecks = b.counterChecks ∧
     (pieceDefenseMoves b pid).2.pinnedLines = b.pinnedLines ∧
     (pieceDefenseMoves b pid).2.pinnedSquares = b.pinnedSquares ∧
     (pieceDefenseMoves b pid).2.underCheck = b.underCheck ∧
     ((pieceDefenseMoves b pid).2.grid = b.grid ∨
      (pieceDefenseMoves b pid).2.grid =
        pyGridSet b.grid (gridIdx (b.heap pid).pos) (some pid)) ∧
     ((b.heap pid).ptype ≠ PType.queen →
       (pieceDefenseMoves b pid).2.grid = b.grid) ∧
     (b.get_piece (b.heap pid).pos = some pid →
       (pieceDefenseMoves b pid).2.grid = b.grid)) ∧
    ((pieceNormalMoves b pid).2.pieces = b.pieces ∧
     (pieceNormalMoves b pid).2.heap = b.heap ∧
     (pieceNormalMoves b pid).2.nextId = b.nextId ∧
     (pieceNormalMoves b pid).2.lastMove = b.lastMove ∧
     (pieceNormalMoves b pid).2.result = b.result ∧
     (pieceNormalMoves b pid).2.promotion = b.promotion ∧
     (pieceNormalMoves b pid).2.attackedSquares = b.attackedSquares ∧
     (pieceNormalMoves b pid).2.counterChecks = b.counterChecks ∧
     (pieceNormalMoves b pid).2.pinnedLines = b.pinnedLines ∧
     (pieceNormalMoves b pid).2.pinnedSquares = b.pinnedSquares ∧
     (pieceNormalMoves b pid).2.underCheck = b.underCheck ∧
     ((pieceNormalMoves b pid).2.grid = b.grid ∨
      (pieceNormalMoves b pid).2.grid =
        pyGridSet b.grid (gridIdx (b.heap pid).pos) (some pid)) ∧
     ((b.heap pid).ptype ≠ PType.queen →
       (pieceNormalMoves b pid).2.grid = b.grid) ∧
     (b.get_piece (b.heap pid).pos = some pid →
       (pieceNormalMoves b pid).2.grid = b.grid)) := by
  constructor
  · rcases pieceDefenseMoves_board b pid with hq | ⟨hqueen, hq⟩
    · rw [hq]
      exact ⟨rfl, rfl, rfl, rfl, rfl, rfl, rfl, rfl, rfl, rfl, rfl,
        Or.inl rfl, fun _ => rfl, fun _ => rfl⟩
    · rw [hq]
      refine ⟨rfl, rfl, rfl, rfl, rfl, rfl, rfl, rfl, rfl, rfl, rfl,
        Or.inr rfl, fun hne => absurd hqueen hne, fun hcons => ?_⟩
      exact pyGridSet_self b.grid (gridIdx (b.heap pid).pos) pid hcons
  · rcases pieceNormalMoves_board b pid with hq | ⟨hqueen, hq⟩
    · rw [hq]
      exact ⟨rfl, rfl, rfl, rfl, rfl, rfl, rfl, rfl, rfl, rfl, rfl,
        Or.inl rfl, fun _ => rfl, fun _ => rfl⟩
    · rw [hq]
      refine ⟨rfl, rfl, rfl, rfl, rfl, rfl, rfl, rfl, rfl, rfl, rfl,
        Or.inr rfl, fun hne => absurd hqueen hne, fun hcons => ?_⟩
      exact pyGridSet_self b.grid (gridIdx (b.heap pid).pos) pid hcons

/-- C10 counterexample: on a board whose queen is not stored in its own grid
slot, defense-mode move generation changes the grid. -/
theorem c10_counterexample :
    (pieceDefenseMoves bBad 0).2.grid ≠ bBad.grid := by
  decide

/-- C10 witness: a non-queen piece on a concrete board leaves the grid
untouched. -/
theorem c10_witness :
    (bWit.heap 0).ptype ≠ PType.queen ∧
    (pieceNormalMoves bWit 0).2.grid = bWit.grid := by
  have h := c10_theorem bWit 0
  exact ⟨by decide, h.2.2.2.2.2.2.2.2.2.2.2.2.2.1 (by decide)⟩

/-- C1: each of the three moves is offered by normal-mode generation, White
is in check with a single counter-check line after Black's bishop move, the
pinned rook's block (4,6)-(3,6) is offered, and after playing it the white
king's square is attacked by Black. -/
theorem c1_theorem :
    ((⟨7,5⟩ : Position) ∈ (pieceNormalMoves bc1_0 0).1) ∧
    ((⟨1,4⟩ : Position) ∈ (pieceNormalMoves bc1_1 5).1) ∧
    bc1_2.underCheck = true ∧
    ((⟨3,6⟩ : Position) ∈ (pieceNormalMoves bc1_2 2).1) ∧
    (bc1_3.heap bc1_3.whiteKing).pos = ⟨4,7⟩ ∧
    ((⟨4,7⟩ : Position) ∈ (bc1_3.get_attacked_squares false).1.1) := by
  decide

/-- C2: the en-passant capture is offered and classified as en passant, the
revert succeeds, and the zobrist hash after move plus revert differs from
the hash before the move. -/
theorem c2_theorem :
    ((⟨3,2⟩ : Position) ∈ (pieceNormalMoves bep2 0).1) ∧
    epmv.enpassant = true ∧
    (bep3.revert epmv bep2.lastMove).isSome = true ∧
    (bep3.revert epmv bep2.lastMove).map (fun bb => bb.get_zobrist_key tblP) ≠
      some (bep2.get_zobrist_key tblP) := by
  decide

/-- C3: after the en-passant capture the captured pawn (id 3) is still in
the live piece list and still occupies its grid square. -/
theorem c3_theorem :
    epmv.enpassant = true ∧
    epmv.capturedPiece = some 3 ∧
    (3 ∈ bep3.pieces) ∧
    bep3.get_piece ⟨3,3⟩ = some 3 := by
  decide

/-- C4: after reverting the promotion move, the original pawn (id 0) is in
the live list with stored position (2,0), yet that grid square is empty,
while a fresh pawn object (id 3, not in the list) sits on (2,1); the
pending promotion is not cleared either. -/
theorem c4_theorem :
    prmv.promotion = true ∧
    (bpr1.revert prmv none).isSome = true ∧
    (0 ∈ bpr2.pieces) ∧
    (bpr2.heap 0).pos = ⟨2,0⟩ ∧
    bpr2.get_piece ⟨2,0⟩ = none ∧
    bpr2.get_piece ⟨2,1⟩ = some 3 ∧
    (3 ∉ bpr2.pieces) ∧
    bpr2.promotion = some 0 := by
  decide

/-- C5: promote on a pending promotion raises (remove_piece is called with
the class, not the pawn); at the raise the pawn is still in the live list,
promotion is still set, and the new piece has been added. -/
theorem c5_theorem :
    bpr1.promotion = some 0 ∧
    (Board.promote bpr1 PType.queen).isError = true ∧
    (0 ∈ (Board.promote bpr1 PType.queen).board.pieces) ∧
    (Board.promote bpr1 PType.queen).board.promotion = some 0 ∧
    (3 ∈ (Board.promote bpr1 PType.queen).board.pieces) := by
  decide

lemma inner_loop_keep (child : ChildFn) (color : Bool) (nodeKey : Nat)
    (prevMove : Option MoveV) (pid : Nat) (positions : List Position) :
    ∀ (st : NodeState) (n : Nat), n ≤ st.trace.length →
      Score.blt st.alpha st.beta = true →
      (∀ e ∈ st.trace.drop n, Score.blt e.alpha e.beta = true) →
      ∀ e ∈ (inner_loop child color nodeKey prevMove pid positions st).trace.drop n,
        Score.blt e.alpha e.beta = true := by
  induction positions with
  | nil =>
    intro st n hn hblt hall
    simpa [inner_loop] using hall
  | cons pos rest ih =>
    intro st n hn hblt hall
    have happ : ∀ e ∈ (st.trace ++
        [(⟨st.alpha, st.beta, pid, pos⟩ : TraceEntry)]).drop n,
        Score.blt e.alpha e.beta = true := by
      intro e he
      rw [List.drop_append_of_le_length hn] at he
      rcases List.mem_append.mp he with h | h
      · exact hall e h
      · rw [List.mem_singleton.mp h]
        exact hblt
    rw [inner_loop]
    split
    · exact hall
    · dsimp only
      split
      · exact happ
      · repeat' split
        all_goals first
          | exact happ
          | (rename_i hcont
             refine ih _ n ?_ ?_ happ
             · simp
               omega
             · simpa using hcont)

theorem c7_theorem (child : ChildFn) (color : Bool) (nodeKey : Nat)
    (prevMove : Option MoveV) (pid : Nat) (positions : List Position)
    (st : NodeState) :
    ∀ e ∈ (inner_loop child color nodeKey prevMove pid positions st).trace.drop
        (st.trace.length + 1),
      Score.blt e.alpha e.beta = true := by
  cases positions with
  | nil =>
    intro e he
    rw [inner_loop] at he
    rw [List.drop_eq_nil_of_le (by omega)] at he
    exact absurd he (List.not_mem_nil e)
  | cons pos rest =>
    rw [inner_loop]
    split
    · intro e he
      rw [List.drop_eq_nil_of_le (by omega)] at he
      exact absurd he (List.not_mem_nil e)
    · dsimp only
      split
      · intro e he
        rw [List.drop_eq_nil_of_le (by simp)] at he
        exact absurd he (List.not_mem_nil e)
      · repeat' split
        all_goals first
          | (intro e he
             rw [List.drop_eq_nil_of_le (by simp)] at he
             exact absurd he (List.not_mem_nil e))
          | (rename_i hcont
             refine inner_loop_keep child color nodeKey prevMove pid rest _
               (st.trace.length + 1) (by simp) (by simpa using hcont) ?_
             intro e he
             rw [List.drop_eq_nil_of_le (by simp)] at he
             exact absurd he (List.not_mem_nil e))

theorem c7_counterexample :
    ¬ (∀ e ∈ nodeTrace tblP 1 bc7 [] true Score.neginf (Score.num 0),
      Score.blt e.alpha e.beta = true) := by
  decide

theorem c7_witness :
    ((⟨Score.num 0, Score.posinf, 0, ⟨0,3⟩⟩ : TraceEntry) ∈
      (inner_loop childWit true 0 none 0 [⟨0,3⟩, ⟨0,3⟩] stWit).trace.drop
        (stWit.trace.length + 1)) ∧
    Score.blt (Score.num 0) Score.posinf = true :=
  ⟨by decide, c7_theorem childWit true 0 none 0 [⟨0,3⟩, ⟨0,3⟩] stWit
    ⟨Score.num 0, Score.posinf, 0, ⟨0,3⟩⟩ (by decide)⟩
